import Mathlib

/-!
Verification development for a small single-currency ledger
(`bank_account.py`): accounts with deposits/withdrawals, global
interest rules, and a monthly interest engine.

Amounts and rates are modelled as rationals (`ℚ`); Python exceptions
are modelled with `Except String` (account level) or an
`Option String × Bank` result pair at the bank level, since the bank
method can mutate state before an inner exception propagates.
-/

attribute [local semireducible] Rat.mul Rat.add Rat.sub Rat.inv

deriving instance DecidableEq for Except

/-- Model of Python `s.upper()` (ASCII, which is all the code compares). -/
def strUpper (s : String) : String :=
  ⟨s.data.map Char.toUpper⟩

/-- Round-half-to-even of a rational to an integer, modelling Python's
`round` tie-breaking on exact values. -/
def roundHalfEven (q : ℚ) : ℤ :=
  let f := q.floor
  if q - f < 1/2 then f
  else if 1/2 < q - f then f + 1
  else if f % 2 = 0 then f else f + 1

/-- Model of Python `round(x, 2)`: round to 2 decimal places. -/
def round2 (q : ℚ) : ℚ :=
  (roundHalfEven (q * 100) : ℚ) / 100

/-- Model of Python's `f"{n:02d}"`: decimal digits, zero-padded to a
minimum width of 2. -/
def pad2 (n : ℕ) : String :=
  if n < 10 then "0" ++ Nat.repr n else Nat.repr n

/-- Model of Python `re.match(r'\d{8}', s)` being truthy: the string has
at least 8 characters and its first 8 characters are digits (the match
is anchored at the start only; the end of the string is unconstrained). -/
def checkDate8 (s : String) : Bool :=
  decide (8 ≤ s.data.length) && (s.data.take 8).all Char.isDigit

/-- Model of Python `re.match(r'\d{6}', s)` being truthy. -/
def checkDigits6 (s : String) : Bool :=
  decide (6 ≤ s.data.length) && (s.data.take 6).all Char.isDigit

/-- Model of Python `s1.startswith(s2)`. -/
def strStartsWith (s pre : String) : Bool :=
  pre.data.isPrefixOf s.data

/-- Lexicographic comparison of character lists by code point, the
order Python uses to compare strings. -/
def listLt : List Char → List Char → Bool
  | _, [] => false
  | [], _ :: _ => true
  | c :: cs, d :: ds => c.toNat < d.toNat || (c = d && listLt cs ds)

/-- Python `s1 < s2` on strings. -/
def strLt (a b : String) : Bool :=
  listLt a.data b.data

/-- Python `s1 <= s2` on strings. -/
def strLe (a b : String) : Bool :=
  !(strLt b a)

/-- Decimal value of a digit list (used to read fixed-width fields of a
`YYYYMMDD` string). -/
def digitsVal (l : List Char) : ℕ :=
  l.foldl (fun n c => n * 10 + (c.toNat - 48)) 0

/-- Gregorian leap-year test, as in the `datetime` module. -/
def isLeap (y : ℕ) : Bool :=
  (y % 4 == 0 && y % 100 != 0) || y % 400 == 0

/-- Number of days in month `m` of year `y`. -/
def daysInMonth (y m : ℕ) : ℕ :=
  if m = 2 then (if isLeap y then 29 else 28)
  else if m = 4 ∨ m = 6 ∨ m = 9 ∨ m = 11 then 30 else 31

/-- Day ordinal of a Gregorian civil date (days since 1970-01-01,
negative before); the standard days-from-civil computation, which is
what subtracting two `datetime` values reduces to. -/
def daysFromCivil (y m d : ℤ) : ℤ :=
  let y' := if m ≤ 2 then y - 1 else y
  let era := (if 0 ≤ y' then y' else y' - 399) / 400
  let yoe := y' - era * 400
  let mp := (m + 9) % 12
  let doy := (153 * mp + 2) / 5 + d - 1
  let doe := yoe * 365 + yoe / 4 - yoe / 100 + doy
  era * 146097 + doe - 719468

/-- Model of `datetime.datetime.strptime(s, "%Y%m%d")` followed by
taking the day ordinal: requires the string to be exactly 8 digits
forming a valid calendar date (year 1–9999). Returns `none` where
`strptime` raises `ValueError`. -/
def parseOrd (s : String) : Option ℤ :=
  if s.data.length = 8 ∧ s.data.all Char.isDigit then
    let y := digitsVal (s.data.take 4)
    let m := digitsVal ((s.data.drop 4).take 2)
    let d := digitsVal (s.data.drop 6)
    if 1 ≤ y ∧ y ≤ 9999 ∧ 1 ≤ m ∧ m ≤ 12 ∧ 1 ≤ d ∧ d ≤ daysInMonth y m
    then some (daysFromCivil y m d) else none
  else none

/-- A recorded transaction (class `Transaction`). The constructor
upper-cases the kind and rounds the amount to 2 decimals. -/
structure Transaction where
  date : String
  account : String
  txn_type : String
  amount : ℚ
  txn_id : String
deriving DecidableEq, Repr

/-- `Transaction.__init__`. -/
def Transaction.make (date account txn_type : String) (amount : ℚ)
    (txn_id : String) : Transaction :=
  ⟨date, account, strUpper txn_type, round2 amount, txn_id⟩

/-- An account (class `Account`): id, ordered transaction list, running
balance. -/
structure Account where
  account_id : String
  transactions : List Transaction
  balance : ℚ
deriving DecidableEq, Repr

/-- `Account.__init__`. -/
def Account.new (account_id : String) : Account :=
  ⟨account_id, [], 0⟩

/-- `Account.generate_transaction_id`: count the transactions already
recorded on `date` and format `date-NN`. -/
def Account.generate_transaction_id (a : Account) (date : String) : String :=
  let count := (a.transactions.filter (fun txn => txn.date = date)).length
  date ++ "-" ++ pad2 (count + 1)

/-- `Account.add_transaction`: the four validations in source order,
then id assignment, append, and balance update. An error result models
the raised `ValueError`; the account is unchanged in that case because
every `raise` in the source occurs before any mutation. -/
def Account.add_transaction (a : Account) (date txn_type : String)
    (amount : ℚ) : Except String Account :=
  if ¬ checkDate8 date then
    .error "Invalid date format. Use YYYYMMDD."
  else if ¬ (strUpper txn_type = "D" ∨ strUpper txn_type = "W") then
    .error "Invalid transaction type. Use 'D' for deposit or 'W' for withdrawal."
  else if amount ≤ 0 ∨ round2 amount ≠ amount then
    .error "Invalid amount. Must be greater than zero with up to two decimal places."
  else if strUpper txn_type = "W" ∧ a.balance - amount < 0 then
    .error "Insufficient balance"
  else
    let txn_id := a.generate_transaction_id date
    let txn := Transaction.make date a.account_id txn_type amount txn_id
    let a' : Account := { a with transactions := a.transactions ++ [txn] }
    if strUpper txn_type = "D" then
      .ok { a' with balance := a'.balance + amount }
    else if strUpper txn_type = "W" then
      .ok { a' with balance := a'.balance - amount }
    else
      .ok a'

/-- `Account.get_statement`: validate the year-month prefix, then filter
the transactions whose date starts with it. -/
def Account.get_statement (a : Account) (year_month : String) :
    Except String (List Transaction) :=
  if ¬ checkDigits6 year_month then
    .error "Invalid year-month format. Use YYYYMM."
  else
    .ok (a.transactions.filter (fun txn => strStartsWith txn.date year_month))

/-- An interest rule (class `InterestRule`). -/
structure InterestRule where
  date : String
  rule_id : String
  rate : ℚ
deriving DecidableEq, Repr

/-- `InterestRule.__init__`: validates the date pattern and then the
rate before constructing; an error models the raised `ValueError`. -/
def InterestRule.make (date rule_id : String) (rate : ℚ) :
    Except String InterestRule :=
  if ¬ checkDate8 date then
    .error "Invalid date format. Use YYYYMMDD."
  else if rate ≤ 0 ∨ 100 ≤ rate then
    .error "Invalid interest rate. Must be between 0 and 100."
  else
    .ok ⟨date, rule_id, rate⟩

/-- The ledger (class `Bank`): the accounts dictionary is modelled as
an association list in insertion order, the rules as a list. -/
structure Bank where
  accounts : List (String × Account)
  interest_rules : List InterestRule
deriving DecidableEq, Repr

/-- `Bank.__init__`. -/
def Bank.new : Bank := ⟨[], []⟩

/-- Dictionary lookup `self.accounts[account_id]` / membership test. -/
def Bank.lookup (b : Bank) (account_id : String) : Option Account :=
  (b.accounts.find? (fun p => p.1 = account_id)).map Prod.snd

/-- Dictionary assignment `self.accounts[k] = a`: replace the value at
an existing key in place, else append the new key. -/
def setKey : List (String × Account) → String → Account → List (String × Account)
  | [], k, a => [(k, a)]
  | (k', a') :: rest, k, a =>
    if k' = k then (k, a) :: rest else (k', a') :: setKey rest k a

/-- `Bank.add_transaction`: lazily create the account, then delegate.
The returned pair is (raised error if any, resulting bank); the lazily
created empty account persists even when the inner call raises, as in
the source. -/
def Bank.add_transaction (b : Bank) (date account_id txn_type : String)
    (amount : ℚ) : Option String × Bank :=
  let accs :=
    if (b.accounts.find? (fun p => p.1 = account_id)).isNone then
      b.accounts ++ [(account_id, Account.new account_id)]
    else b.accounts
  let a := ((accs.find? (fun p => p.1 = account_id)).map Prod.snd).getD
    (Account.new account_id)
  match a.add_transaction date txn_type amount with
  | .error e => (some e, { b with accounts := accs })
  | .ok a' => (none, { b with accounts := setKey accs account_id a' })

/-- `Bank.add_interest_rule`: rate gate, then removal of the same-date
rule, then construction (whose own validation may raise after the
removal has been assigned), then append and re-sort by date. -/
def Bank.add_interest_rule (b : Bank) (date rule_id : String) (rate : ℚ) :
    Option String × Bank :=
  if rate ≤ 0 ∨ 100 ≤ rate then
    (some "Invalid interest rate", b)
  else
    let filtered := b.interest_rules.filter (fun r => r.date ≠ date)
    match InterestRule.make date rule_id rate with
    | .error e => (some e, { b with interest_rules := filtered })
    | .ok r =>
      (none, { b with interest_rules :=
        List.insertionSort (fun x y => strLe x.date y.date = true) (filtered ++ [r]) })

/-- The signed contribution of a stored transaction:
`txn.amount if txn.txn_type == "D" else -txn.amount`. -/
def signedAmount (txn : Transaction) : ℚ :=
  if txn.txn_type = "D" then txn.amount else -txn.amount

/-- Dictionary accumulation `m[k] = m.get(k, 0) + v`: update the value
at an existing key in place, else append. -/
def assocAdd : List (String × ℚ) → String → ℚ → List (String × ℚ)
  | [], k, v => [(k, v)]
  | (k', v') :: rest, k, v =>
    if k' = k then (k', v' + v) :: rest else (k', v') :: assocAdd rest k v

/-- Dictionary read with default 0, `m.get(k, 0)`. -/
def assocVal (m : List (String × ℚ)) (k : String) : ℚ :=
  match m.find? (fun p => p.1 = k) with
  | some p => p.2
  | none => 0

/-- Python `max(iterable, key=lambda r: r.date, default=None)`: `none`
on an empty list, otherwise the first element with maximal date. -/
def maxByDate (l : List InterestRule) : Option InterestRule :=
  match l with
  | [] => none
  | r :: rs => some (rs.foldl (fun best x => if strLt best.date x.date then x else best) r)

/-- `max((rule for rule in self.interest_rules if rule.date <= day), ...)`. -/
def applicableRule (rules : List InterestRule) (day : String) :
    Option InterestRule :=
  maxByDate (rules.filter (fun r => strLe r.date day))

/-- The `for i, day in enumerate(sorted_days)` loop of
`calculate_interest`, carrying the previous day (none on the first
iteration), the previous balance, and the accumulated total. When no
rule applies, no day arithmetic happens; otherwise the gap in days is
computed by date parsing, which can raise (`.error`) exactly where
`strptime` would. -/
def interestLoop (rules : List InterestRule) (eod : String → ℚ) :
    List String → Option String → ℚ → ℚ → Except String ℚ
  | [], _, _, total => .ok total
  | day :: rest, prev, prevBal, total =>
    let balance := prevBal + eod day
    match applicableRule rules day with
    | none => interestLoop rules eod rest (some day) balance total
    | some r =>
      match prev with
      | none =>
        interestLoop rules eod rest (some day) balance
          (total + balance * r.rate * 1 / 365)
      | some p =>
        match parseOrd day, parseOrd p with
        | some d1, some d0 =>
          interestLoop rules eod rest (some day) balance
            (total + balance * r.rate * ((d1 - d0 : ℤ) : ℚ) / 365)
        | _, _ => .error "time data does not match format YYYYMMDD"

/-- The `end_of_day_balances` dictionary build: fold the statement into
an insertion-ordered association list of per-day signed deltas. -/
def eodFold (statement : List Transaction) : List (String × ℚ) :=
  statement.foldl (fun m txn => assocAdd m txn.date (signedAmount txn)) []

/-- The interest engine of `calculate_interest` (lines 82–96 of the
source): dictionary build, `sorted_days`, and the accrual loop. -/
def interestEngine (rules : List InterestRule) (statement : List Transaction) :
    Except String ℚ :=
  let eod := eodFold statement
  let sorted_days := List.insertionSort (fun x y => strLe x y = true) (eod.map Prod.fst)
  interestLoop rules (assocVal eod) sorted_days none 0 0

def Bank.calculate_interest (b : Bank) (account_id year_month : String) :
    Except String ℚ :=
  match b.accounts.find? (fun p => p.1 = account_id) with
  | none => .ok 0
  | some (_, acct) =>
    match acct.get_statement year_month with
    | .error e => .error e
    | .ok statement =>
      if statement = [] then .ok 0
      else
        match interestEngine b.interest_rules statement with
        | .error e => .error e
        | .ok total => .ok (round2 total)

/-- A transaction request, as read from the CLI (date, kind, amount). -/
structure TxnReq where
  date : String
  txn_type : String
  amount : ℚ
deriving DecidableEq, Repr

/-- Apply one request to an account, keeping the previous state when
the call raises (as the CLI loop does: it catches the exception and
continues with the same objects). -/
def applyReq (a : Account) (r : TxnReq) : Account :=
  match a.add_transaction r.date r.txn_type r.amount with
  | .ok a' => a'
  | .error _ => a

/-- Apply a sequence of requests, skipping the ones that fail. -/
def processAll (a : Account) (rs : List TxnReq) : Account :=
  rs.foldl applyReq a

/-- Apply a sequence of requests, `none` as soon as one fails. -/
def processAllStrict (a : Account) : List TxnReq → Option Account
  | [] => some a
  | r :: rs =>
    match a.add_transaction r.date r.txn_type r.amount with
    | .ok a' => processAllStrict a' rs
    | .error _ => none

/-- Sum of the amounts of the stored deposit transactions. -/
def depositSum (ts : List Transaction) : ℚ :=
  ((ts.filter (fun t => t.txn_type = "D")).map (fun t => t.amount)).sum

/-- Sum of the amounts of the stored withdrawal transactions. -/
def withdrawalSum (ts : List Transaction) : ℚ :=
  ((ts.filter (fun t => t.txn_type = "W")).map (fun t => t.amount)).sum

/-- The rule list holds at most one rule per effective date. -/
def DistinctDates (rules : List InterestRule) : Prop :=
  List.Pairwise (fun a b => a.date ≠ b.date) rules

instance (rules : List InterestRule) : Decidable (DistinctDates rules) :=
  inferInstanceAs (Decidable (List.Pairwise _ _))

/-! ### Specification-side definitions

These follow the wording of the specification (not the code) and are
used to state refinement claims against the embedded code. -/

/-- Spec side: the net signed delta of one calendar day within a
statement: sum of deposits minus sum of withdrawals of that day. -/
def netDelta (stmt : List Transaction) (d : String) : ℚ :=
  ((stmt.filter (fun t => t.date = d)).map signedAmount).sum

/-- Spec side: the sorted, de-duplicated list of distinct days that had
at least one transaction in the statement. -/
def specDays (stmt : List Transaction) : List String :=
  List.insertionSort (fun x y => strLe x y = true) (stmt.map (fun t => t.date)).dedup

/-- Spec side: the applicable rule's rate for a day: the
`annualRatePercent` of the rule with the maximum `effectiveDate` not
exceeding the day, `none` if no rule qualifies. (On the duplicate-date
ties that a rule *set* cannot contain, this picks the latest-listed
qualifying rule.) -/
def specRate (rules : List InterestRule) (d : String) : Option ℚ :=
  match rules.filter (fun r => strLe r.date d) with
  | [] => none
  | r :: rs =>
    some ((rs.foldl (fun best x => if strLt x.date best.date then best else x) r).rate)

/-- Spec side: the calendar-day difference between two `YYYYMMDD`
days. -/
def calendarDiff (p d : String) : ℚ :=
  (((parseOrd d).getD 0 - (parseOrd p).getD 0 : ℤ) : ℚ)

/-- Spec side: walk the sorted distinct days, carrying the running
balance (started from 0); each day contributes
`balance_i * rate(d_i) * days_i / 365`, where `days_i` is 1 for the
first day and the calendar-day difference to the previous day after
that; a day with no qualifying rule contributes zero. -/
def specWalk (rules : List InterestRule) (delta : String → ℚ) :
    List String → Option String → ℚ → ℚ
  | [], _, _ => 0
  | d :: rest, prev, bal =>
    let bal' := bal + delta d
    (match specRate rules d with
     | none => 0
     | some rate =>
       bal' * rate * (match prev with
         | none => 1
         | some p => calendarDiff p d) / 365)
    + specWalk rules delta rest (some d) bal'

/-- Spec side: the interest engine's sum for one statement, per the
specification's formula. -/
def specInterestSum (rules : List InterestRule) (stmt : List Transaction) : ℚ :=
  specWalk rules (netDelta stmt) (specDays stmt) none 0

/-- Spec side: the date string matches an 8-digit calendar-date
pattern: exactly 8 digits forming a valid `YYYYMMDD` calendar date. -/
def specIsCalendarDate (s : String) : Bool :=
  (parseOrd s).isSome

/-! ### Order theory of the string comparison -/

lemma char_toNat_inj {c d : Char} (h : c.toNat = d.toNat) : c = d := by
  cases c; cases d
  simp only [Char.toNat] at h
  congr 1
  exact UInt32.ext h

lemma string_data_inj {a b : String} (h : a.data = b.data) : a = b := by
  cases a; cases b; exact congrArg String.mk h

lemma listLt_irrefl (l : List Char) : listLt l l = false := by
  induction l with
  | nil => rfl
  | cons c cs ih => simp [listLt, ih]

lemma listLt_asymm :
    ∀ l₁ l₂ : List Char, listLt l₁ l₂ = true → listLt l₂ l₁ = false := by
  intro l₁
  induction l₁ with
  | nil => intro l₂ _; cases l₂ <;> rfl
  | cons c cs ih =>
    intro l₂ h
    cases l₂ with
    | nil => simp [listLt] at h
    | cons d ds =>
      simp only [listLt, Bool.or_eq_true, Bool.and_eq_true, decide_eq_true_eq] at h
      simp only [listLt]
      rcases h with h | ⟨hcd, h⟩
      · have h1 : decide (d.toNat < c.toNat) = false := decide_eq_false (Nat.lt_asymm h)
        have h2 : decide (d = c) = false :=
          decide_eq_false (fun hdc => by subst hdc; exact Nat.lt_irrefl _ h)
        simp [h1, h2]
      · subst hcd
        have h1 : decide (c.toNat < c.toNat) = false := decide_eq_false (Nat.lt_irrefl _)
        simp [h1, ih ds h]

lemma listLt_trans :
    ∀ l₁ l₂ l₃ : List Char, listLt l₁ l₂ = true → listLt l₂ l₃ = true →
      listLt l₁ l₃ = true := by
  intro l₁
  induction l₁ with
  | nil =>
    intro l₂ l₃ _ h₂
    cases l₃ with
    | nil => cases l₂ <;> simp [listLt] at h₂
    | cons e es => rfl
  | cons c cs ih =>
    intro l₂ l₃ h₁ h₂
    cases l₂ with
    | nil => simp [listLt] at h₁
    | cons d ds =>
      cases l₃ with
      | nil => simp [listLt] at h₂
      | cons e es =>
        simp only [listLt, Bool.or_eq_true, Bool.and_eq_true, decide_eq_true_eq] at h₁ h₂ ⊢
        rcases h₁ with h₁ | ⟨hcd, h₁⟩ <;> rcases h₂ with h₂ | ⟨hde, h₂⟩
        · exact Or.inl (Nat.lt_trans h₁ h₂)
        · subst hde; exact Or.inl h₁
        · subst hcd; exact Or.inl h₂
        · subst hcd; subst hde; exact Or.inr ⟨rfl, ih ds es h₁ h₂⟩

lemma listLt_connex :
    ∀ l₁ l₂ : List Char, listLt l₁ l₂ = false → listLt l₂ l₁ = false →
      l₁ = l₂ := by
  intro l₁
  induction l₁ with
  | nil =>
    intro l₂ h₁ _
    cases l₂ with
    | nil => rfl
    | cons d ds => simp [listLt] at h₁
  | cons c cs ih =>
    intro l₂ h₁ h₂
    cases l₂ with
    | nil => simp [listLt] at h₂
    | cons d ds =>
      simp only [listLt, Bool.or_eq_false_iff, Bool.and_eq_false_iff,
        decide_eq_false_iff_not] at h₁ h₂
      have hcd : c = d := by
        apply char_toNat_inj
        omega
      subst hcd
      rcases h₁.2 with h | h
      · simp at h
      · rcases h₂.2 with h' | h'
        · simp at h'
        · rw [ih ds h h']

lemma strLe_total (a b : String) : strLe a b = true ∨ strLe b a = true := by
  by_cases h : listLt b.data a.data = true
  · right
    simp only [strLe, strLt, Bool.not_eq_true']
    exact listLt_asymm _ _ h
  · left
    simp only [strLe, strLt, Bool.not_eq_true']
    exact Bool.not_eq_true _ ▸ (Bool.eq_false_iff.mpr (fun hc => h hc))

lemma strLe_trans {a b c : String} (h₁ : strLe a b = true)
    (h₂ : strLe b c = true) : strLe a c = true := by
  simp only [strLe, strLt, Bool.not_eq_true'] at h₁ h₂ ⊢
  cases hca : listLt c.data a.data with
  | false => rfl
  | true =>
    cases hbc : listLt b.data c.data with
    | false =>
      have hbceq := listLt_connex _ _ hbc h₂
      rw [hbceq] at h₁
      rw [h₁] at hca
      cases hca
    | true =>
      have := listLt_trans _ _ _ hbc hca
      rw [this] at h₁
      cases h₁

lemma strLe_antisymm {a b : String} (h₁ : strLe a b = true)
    (h₂ : strLe b a = true) : a = b := by
  simp only [strLe, strLt, Bool.not_eq_true'] at h₁ h₂
  exact string_data_inj (listLt_connex _ _ h₂ h₁)

instance : IsTotal String (fun a b => strLe a b = true) := ⟨strLe_total⟩

instance : IsTrans String (fun a b => strLe a b = true) :=
  ⟨fun _ _ _ => strLe_trans⟩

instance : IsAntisymm String (fun a b => strLe a b = true) :=
  ⟨fun _ _ => strLe_antisymm⟩

instance : IsTotal InterestRule (fun x y => strLe x.date y.date = true) :=
  ⟨fun a b => strLe_total a.date b.date⟩

instance : IsTrans InterestRule (fun x y => strLe x.date y.date = true) :=
  ⟨fun _ _ _ => strLe_trans⟩

example : pad2 3 = "03" := by decide
example : pad2 12 = "12" := by decide
example : checkDate8 "20230601" = true := by decide
example : checkDate8 "2023" = false := by decide
example : parseOrd "20230601" = some 19509 := by decide
example : round2 (400/365) = 11/10 := by decide
example : ((2:ℤ) : ℚ) + (-3 : ℚ) = -1 := by decide

-- Sanity: scenarios of the repository's unit tests.
example :
    ((((Bank.new.add_transaction "20230601" "AC001" "D" 100).2).add_transaction
      "20230602" "AC001" "W" 50).2).lookup "AC001" =
    some ⟨"AC001",
      [⟨"20230601", "AC001", "D", 100, "20230601-01"⟩,
       ⟨"20230602", "AC001", "W", 50, "20230602-01"⟩], 50⟩ := by decide

example :
    (((Bank.new.add_transaction "20230601" "AC001" "D" 50).2).add_transaction
      "20230602" "AC001" "W" 100).1 = some "Insufficient balance" := by decide

example :
    ((((Bank.new.add_transaction "20230601" "AC001" "D" 200).2).add_interest_rule
      "20230601" "RULE01" 2).2).calculate_interest "AC001" "202306" =
    .ok (11/10) := by decide

example : Bank.new.calculate_interest "AC999" "202306" = .ok 0 := by decide

/-! ### The dictionary build computes per-day net deltas -/

lemma assocVal_nil (k : String) : assocVal [] k = 0 := rfl

lemma assocVal_cons (a : String) (w : ℚ) (rest : List (String × ℚ))
    (k : String) :
    assocVal ((a, w) :: rest) k = if a = k then w else assocVal rest k := by
  by_cases h : a = k <;> simp [assocVal, List.find?, h]

lemma assocAdd_val (m : List (String × ℚ)) (k : String) (v : ℚ) (k' : String) :
    assocVal (assocAdd m k v) k' = assocVal m k' + if k' = k then v else 0 := by
  induction m with
  | nil =>
    rw [show assocAdd [] k v = [(k, v)] from rfl, assocVal_cons, assocVal_nil]
    by_cases h : k = k'
    · simp [h]
    · rw [if_neg h, if_neg (fun hh : k' = k => h hh.symm)]
      norm_num
  | cons p rest ih =>
    obtain ⟨a, w⟩ := p
    by_cases hak : a = k
    · rw [show assocAdd ((a, w) :: rest) k v = (a, w + v) :: rest from by
        simp [assocAdd, hak], assocVal_cons, assocVal_cons]
      by_cases h : a = k'
      · have hkk : k' = k := by rw [← h, hak]
        simp [h, hkk]
      · have hkk : ¬ k' = k := by rw [← hak]; exact fun hh => h hh.symm
        simp [h, hkk]
    · rw [show assocAdd ((a, w) :: rest) k v = (a, w) :: assocAdd rest k v from by
        simp [assocAdd, hak], assocVal_cons, assocVal_cons]
      by_cases h : a = k'
      · have hkk : ¬ k' = k := by rw [← h]; exact hak
        simp [h, hkk]
      · simp [h, ih]

lemma assocAdd_keys (m : List (String × ℚ)) (k : String) (v : ℚ) (x : String) :
    (x ∈ (assocAdd m k v).map Prod.fst) ↔ (x ∈ m.map Prod.fst ∨ x = k) := by
  induction m with
  | nil => simp [assocAdd]
  | cons p rest ih =>
    obtain ⟨a, w⟩ := p
    by_cases hak : a = k
    · subst hak
      rw [show assocAdd ((a, w) :: rest) a v = (a, w + v) :: rest from by
        simp [assocAdd]]
      simp only [List.map_cons, List.mem_cons]
      constructor
      · rintro (h | h)
        · exact Or.inl (Or.inl h)
        · exact Or.inl (Or.inr h)
      · rintro ((h | h) | h)
        · exact Or.inl h
        · exact Or.inr h
        · exact Or.inl h
    · rw [show assocAdd ((a, w) :: rest) k v = (a, w) :: assocAdd rest k v from by
        simp [assocAdd, hak]]
      simp only [List.map_cons, List.mem_cons, ih]
      tauto

lemma assocAdd_keys_nodup (m : List (String × ℚ)) (k : String) (v : ℚ)
    (h : (m.map Prod.fst).Nodup) : ((assocAdd m k v).map Prod.fst).Nodup := by
  induction m with
  | nil => simp [assocAdd]
  | cons p rest ih =>
    obtain ⟨a, w⟩ := p
    simp only [List.map_cons, List.nodup_cons] at h
    by_cases hak : a = k
    · subst hak
      rw [show assocAdd ((a, w) :: rest) a v = (a, w + v) :: rest from by
        simp [assocAdd]]
      simp only [List.map_cons, List.nodup_cons]
      exact h
    · rw [show assocAdd ((a, w) :: rest) k v = (a, w) :: assocAdd rest k v from by
        simp [assocAdd, hak]]
      simp only [List.map_cons, List.nodup_cons]
      refine ⟨?_, ih h.2⟩
      rw [assocAdd_keys]
      rintro (hmem | hmem)
      · exact h.1 hmem
      · exact hak hmem

lemma netDelta_nil (d : String) : netDelta [] d = 0 := rfl

lemma netDelta_cons (t : Transaction) (rest : List Transaction) (d : String) :
    netDelta (t :: rest) d =
      (if t.date = d then signedAmount t else 0) + netDelta rest d := by
  by_cases h : t.date = d <;> simp [netDelta, h]

lemma eodFold_val_aux (stmt : List Transaction) :
    ∀ (m : List (String × ℚ)) (d : String),
      assocVal (stmt.foldl (fun m txn => assocAdd m txn.date (signedAmount txn)) m) d
        = assocVal m d + netDelta stmt d := by
  induction stmt with
  | nil => intro m d; simp [netDelta_nil]
  | cons t rest ih =>
    intro m d
    rw [List.foldl_cons, ih, assocAdd_val, netDelta_cons]
    by_cases h : t.date = d
    · rw [if_pos h, if_pos h.symm]; ring
    · rw [if_neg h, if_neg (fun hh : d = t.date => h hh.symm)]; ring

lemma eodFold_val (stmt : List Transaction) (d : String) :
    assocVal (eodFold stmt) d = netDelta stmt d := by
  have h := eodFold_val_aux stmt [] d
  rw [eodFold, h, assocVal_nil, zero_add]

lemma eodFold_mem_aux (stmt : List Transaction) :
    ∀ (m : List (String × ℚ)) (x : String),
      (x ∈ (stmt.foldl (fun m txn => assocAdd m txn.date (signedAmount txn)) m).map Prod.fst
        ↔ x ∈ m.map Prod.fst ∨ x ∈ stmt.map (fun t => t.date)) := by
  induction stmt with
  | nil => intro m x; simp
  | cons t rest ih =>
    intro m x
    rw [List.foldl_cons, ih, assocAdd_keys]
    simp only [List.map_cons, List.mem_cons]
    tauto

lemma eodFold_mem (stmt : List Transaction) (x : String) :
    x ∈ (eodFold stmt).map Prod.fst ↔ x ∈ stmt.map (fun t => t.date) := by
  rw [eodFold, eodFold_mem_aux]
  simp

lemma eodFold_nodup_aux (stmt : List Transaction) :
    ∀ (m : List (String × ℚ)), (m.map Prod.fst).Nodup →
      ((stmt.foldl (fun m txn => assocAdd m txn.date (signedAmount txn)) m).map Prod.fst).Nodup := by
  induction stmt with
  | nil => intro m h; exact h
  | cons t rest ih =>
    intro m h
    rw [List.foldl_cons]
    exact ih _ (assocAdd_keys_nodup _ _ _ h)

lemma eodFold_nodup (stmt : List Transaction) :
    ((eodFold stmt).map Prod.fst).Nodup :=
  eodFold_nodup_aux stmt [] (by simp)

lemma sortedDays_eq (stmt : List Transaction) :
    List.insertionSort (fun x y => strLe x y = true) ((eodFold stmt).map Prod.fst)
      = specDays stmt := by
  apply List.eq_of_perm_of_sorted
    (r := fun x y => strLe x y = true)
  · refine ((List.perm_insertionSort _ _).trans ?_).trans
      (List.perm_insertionSort _ _).symm
    rw [List.perm_ext_iff_of_nodup (eodFold_nodup stmt) (List.nodup_dedup _)]
    intro x
    rw [eodFold_mem, List.mem_dedup]
  · exact List.sorted_insertionSort _ _
  · exact List.sorted_insertionSort _ _

/-! ### The rule-lookup fold and the accrual loop match the spec -/

lemma strLt_conn {a b : String} (h₁ : strLt a b = false)
    (h₂ : strLt b a = false) : a = b := by
  exact string_data_inj (listLt_connex _ _ h₁ h₂)

lemma foldl_max_eq (l : List InterestRule) :
    ∀ r₀ : InterestRule, List.Pairwise (fun a b => a.date ≠ b.date) (r₀ :: l) →
      l.foldl (fun best x => if strLt best.date x.date then x else best) r₀ =
      l.foldl (fun best x => if strLt x.date best.date then best else x) r₀ := by
  induction l with
  | nil => intro r₀ _; rfl
  | cons x xs ih =>
    intro r₀ hp
    have hne : r₀.date ≠ x.date :=
      (List.pairwise_cons.mp hp).1 x (List.mem_cons_self _ _)
    have hxxs : List.Pairwise (fun a b => a.date ≠ b.date) (x :: xs) :=
      (List.pairwise_cons.mp hp).2
    have hr₀xs : List.Pairwise (fun a b => a.date ≠ b.date) (r₀ :: xs) :=
      List.pairwise_cons.mpr
        ⟨fun y hy => (List.pairwise_cons.mp hp).1 y (List.mem_cons_of_mem _ hy),
         hxxs.of_cons⟩
    rw [List.foldl_cons, List.foldl_cons]
    by_cases hlt : strLt r₀.date x.date = true
    · have hgt : strLt x.date r₀.date = false := by
        unfold strLt at hlt ⊢
        exact listLt_asymm _ _ hlt
      rw [if_pos hlt, if_neg (by rw [hgt]; exact Bool.false_ne_true)]
      exact ih x hxxs
    · have hlt' : strLt r₀.date x.date = false := by simpa using hlt
      have hgt : strLt x.date r₀.date = true := by
        by_contra hx
        have hx' : strLt x.date r₀.date = false := by simpa using hx
        exact hne (strLt_conn hlt' hx')
      rw [if_neg hlt, if_pos hgt]
      exact ih r₀ hr₀xs

lemma specRate_eq (rules : List InterestRule) (d : String)
    (h : DistinctDates rules) :
    specRate rules d = (applicableRule rules d).map InterestRule.rate := by
  have hf : List.Pairwise (fun a b => a.date ≠ b.date)
      (rules.filter (fun r => strLe r.date d)) := List.Pairwise.filter _ h
  cases hfl : rules.filter (fun r => strLe r.date d) with
  | nil => simp [specRate, applicableRule, maxByDate, hfl]
  | cons r rs =>
    rw [hfl] at hf
    simp only [specRate, applicableRule, maxByDate, hfl, Option.map_some]
    rw [← foldl_max_eq rs r hf]
    rfl

lemma interestLoop_spec (rules : List InterestRule) (eod : String → ℚ)
    (hdist : DistinctDates rules) :
    ∀ (days : List String) (prev : Option String) (bal total : ℚ),
      (∀ d ∈ days, (parseOrd d).isSome) →
      (∀ p, prev = some p → (parseOrd p).isSome) →
      interestLoop rules eod days prev bal total
        = .ok (total + specWalk rules eod days prev bal) := by
  intro days
  induction days with
  | nil => intro prev bal total _ _; simp [interestLoop, specWalk]
  | cons d rest ih =>
    intro prev bal total hdays hprev
    have hd : (parseOrd d).isSome := hdays d (List.mem_cons_self _ _)
    have hrest : ∀ x ∈ rest, (parseOrd x).isSome :=
      fun x hx => hdays x (List.mem_cons_of_mem _ hx)
    have hnext : ∀ p, (some d : Option String) = some p → (parseOrd p).isSome :=
      fun p hp => by cases hp; exact hd
    have hrs := specRate_eq rules d hdist
    cases har : applicableRule rules d with
    | none =>
      have hsr : specRate rules d = none := by rw [hrs, har]; rfl
      simp only [interestLoop, specWalk, har, hsr]
      rw [ih (some d) (bal + eod d) total hrest hnext]
      congr 1
      ring
    | some r =>
      have hsr : specRate rules d = some r.rate := by rw [hrs, har]; rfl
      cases prev with
      | none =>
        simp only [interestLoop, specWalk, har, hsr]
        rw [ih (some d) (bal + eod d) (total + (bal + eod d) * r.rate * 1 / 365)
          hrest hnext]
        congr 1
        ring
      | some p =>
        have hp : (parseOrd p).isSome := hprev p rfl
        obtain ⟨d1, hd1⟩ := Option.isSome_iff_exists.mp hd
        obtain ⟨d0, hd0⟩ := Option.isSome_iff_exists.mp hp
        simp only [interestLoop, specWalk, har, hsr, hd1, hd0, calendarDiff,
          Option.getD_some]
        rw [ih (some d) (bal + eod d)
          (total + (bal + eod d) * r.rate * ((d1 - d0 : ℤ) : ℚ) / 365) hrest hnext]
        congr 1
        ring

lemma interestEngine_spec (rules : List InterestRule) (stmt : List Transaction)
    (hdist : DistinctDates rules)
    (hdates : ∀ d ∈ stmt.map (fun t => t.date), (parseOrd d).isSome) :
    interestEngine rules stmt = .ok (specInterestSum rules stmt) := by
  simp only [interestEngine]
  have hdel : assocVal (eodFold stmt) = netDelta stmt := funext (eodFold_val stmt)
  rw [sortedDays_eq, hdel]
  rw [interestLoop_spec rules (netDelta stmt) hdist (specDays stmt) none 0 0
    (fun d hd => hdates d (by
      rw [specDays] at hd
      rw [List.mem_insertionSort] at hd
      exact (List.mem_dedup).mp hd))
    (fun p hp => by cases hp)]
  rw [zero_add]
  rfl

lemma calculate_interest_spec (b : Bank) (account_id year_month : String)
    (acct : Account) (hacc : b.lookup account_id = some acct)
    (hym : checkDigits6 year_month = true)
    (hne : acct.transactions.filter (fun t => strStartsWith t.date year_month) ≠ [])
    (hdist : DistinctDates b.interest_rules)
    (hdates : ∀ t ∈ acct.transactions.filter (fun t => strStartsWith t.date year_month),
      (parseOrd t.date).isSome) :
    b.calculate_interest account_id year_month
      = .ok (round2 (specInterestSum b.interest_rules
          (acct.transactions.filter (fun t => strStartsWith t.date year_month)))) := by
  unfold Bank.lookup at hacc
  cases hfind : b.accounts.find? (fun p => p.1 = account_id) with
  | none => rw [hfind] at hacc; cases hacc
  | some pr =>
    rw [hfind] at hacc
    obtain ⟨k, a⟩ := pr
    have ha : a = acct := by simpa using hacc
    subst ha
    simp only [Bank.calculate_interest, hfind, Account.get_statement, hym,
      Bool.true_eq_false, not_true_eq_false, if_false, if_neg hne]
    rw [interestEngine_spec b.interest_rules _ hdist
      (fun d hd => by
        obtain ⟨t, ht, rfl⟩ := List.mem_map.mp hd
        exact hdates t ht)]

/-! ### Shape of a successful `add_transaction` and balance invariant -/

lemma depositSum_append (ts : List Transaction) (t : Transaction) :
    depositSum (ts ++ [t]) =
      depositSum ts + (if t.txn_type = "D" then t.amount else 0) := by
  by_cases h : t.txn_type = "D" <;> simp [depositSum, List.filter_append, h]

lemma withdrawalSum_append (ts : List Transaction) (t : Transaction) :
    withdrawalSum (ts ++ [t]) =
      withdrawalSum ts + (if t.txn_type = "W" then t.amount else 0) := by
  by_cases h : t.txn_type = "W" <;> simp [withdrawalSum, List.filter_append, h]

lemma add_transaction_ok_shape (a : Account) (date txn_type : String)
    (amount : ℚ) (a' : Account)
    (h : a.add_transaction date txn_type amount = .ok a') :
    a'.transactions = a.transactions ++
      [Transaction.make date a.account_id txn_type amount
        (a.generate_transaction_id date)] := by
  unfold Account.add_transaction at h
  split_ifs at h <;> cases h <;> rfl

lemma add_transaction_ok_checks (a : Account) (date txn_type : String)
    (amount : ℚ) (a' : Account)
    (h : a.add_transaction date txn_type amount = .ok a') :
    checkDate8 date = true ∧
    (strUpper txn_type = "D" ∨ strUpper txn_type = "W") ∧
    0 < amount ∧ round2 amount = amount := by
  unfold Account.add_transaction at h
  split_ifs at h with h1 h2 h3 <;> try cases h
  all_goals
    refine ⟨by simpa using h1, by simpa using h2, ?_, ?_⟩ <;>
      (rw [not_or] at h3; push_neg at h3) <;> tauto

lemma add_transaction_ok_balance (a : Account) (date txn_type : String)
    (amount : ℚ) (a' : Account)
    (h : a.add_transaction date txn_type amount = .ok a') :
    (strUpper txn_type = "D" ∧ a'.balance = a.balance + amount) ∨
    (strUpper txn_type = "W" ∧ a'.balance = a.balance - amount ∧
      0 ≤ a.balance - amount) := by
  unfold Account.add_transaction at h
  split_ifs at h with h1 h2 h3 h4 h5 h6 <;> cases h
  · exact Or.inl ⟨h5, rfl⟩
  · refine Or.inr ⟨h6, rfl, ?_⟩
    rw [not_and] at h4
    have := h4 h6
    linarith
  · exfalso
    rcases (by simpa using h2 : strUpper txn_type = "D" ∨ strUpper txn_type = "W")
      with hD | hW
    · exact h5 hD
    · exact h6 hW

lemma add_transaction_inv (a : Account) (date txn_type : String) (amount : ℚ)
    (a' : Account) (h : a.add_transaction date txn_type amount = .ok a')
    (hb : a.balance = depositSum a.transactions - withdrawalSum a.transactions)
    (hn : 0 ≤ a.balance) :
    a'.balance = depositSum a'.transactions - withdrawalSum a'.transactions ∧
      0 ≤ a'.balance := by
  have hsh := add_transaction_ok_shape a date txn_type amount a' h
  obtain ⟨hd8, hDW, hpos, hr2⟩ := add_transaction_ok_checks a date txn_type amount a' h
  have hamt : (Transaction.make date a.account_id txn_type amount
      (a.generate_transaction_id date)).amount = amount := hr2
  have htype : (Transaction.make date a.account_id txn_type amount
      (a.generate_transaction_id date)).txn_type = strUpper txn_type := rfl
  rcases add_transaction_ok_balance a date txn_type amount a' h with
    ⟨hD, hbal'⟩ | ⟨hW, hbal', hge⟩
  · constructor
    · rw [hbal', hsh, depositSum_append, withdrawalSum_append, htype, hamt, hD]
      rw [if_pos rfl, if_neg (by decide : ¬("D" : String) = "W"), hb]
      ring
    · rw [hbal']; linarith
  · constructor
    · rw [hbal', hsh, depositSum_append, withdrawalSum_append, htype, hamt, hW]
      rw [if_neg (by decide : ¬("W" : String) = "D"), if_pos rfl, hb]
      ring
    · rw [hbal']; linarith

lemma applyReq_inv (a : Account) (r : TxnReq)
    (hb : a.balance = depositSum a.transactions - withdrawalSum a.transactions)
    (hn : 0 ≤ a.balance) :
    (applyReq a r).balance =
        depositSum (applyReq a r).transactions -
          withdrawalSum (applyReq a r).transactions ∧
      0 ≤ (applyReq a r).balance := by
  rw [applyReq]
  cases happ : a.add_transaction r.date r.txn_type r.amount with
  | error e => exact ⟨hb, hn⟩
  | ok a' => exact add_transaction_inv a r.date r.txn_type r.amount a' happ hb hn

lemma processAll_inv (rs : List TxnReq) :
    ∀ a : Account,
      a.balance = depositSum a.transactions - withdrawalSum a.transactions →
      0 ≤ a.balance →
      (processAll a rs).balance =
          depositSum (processAll a rs).transactions -
            withdrawalSum (processAll a rs).transactions ∧
        0 ≤ (processAll a rs).balance := by
  induction rs with
  | nil => intro a hb hn; exact ⟨hb, hn⟩
  | cons r rest ih =>
    intro a hb hn
    rw [processAll, List.foldl_cons]
    obtain ⟨hb', hn'⟩ := applyReq_inv a r hb hn
    exact ih (applyReq a r) hb' hn'

/-! ### Transaction id sequences -/

lemma filter_date_append (ts : List Transaction) (t : Transaction) (d : String) :
    (ts ++ [t]).filter (fun x => x.date = d) =
      ts.filter (fun x => x.date = d) ++ (if t.date = d then [t] else []) := by
  by_cases h : t.date = d <;> simp [List.filter_append, h]

lemma generate_transaction_id_eq (a : Account) (date : String) :
    a.generate_transaction_id date = date ++ "-" ++
      pad2 ((a.transactions.filter (fun txn => txn.date = date)).length + 1) := rfl

lemma processAllStrict_ids (d : String) :
    ∀ (rs : List TxnReq) (a a' : Account), (∀ r ∈ rs, r.date = d) →
      processAllStrict a rs = some a' →
      (a'.transactions.filter (fun t => t.date = d)).map (fun t => t.txn_id) =
        (a.transactions.filter (fun t => t.date = d)).map (fun t => t.txn_id) ++
          (List.range rs.length).map (fun i => d ++ "-" ++
            pad2 ((a.transactions.filter (fun t => t.date = d)).length + (i + 1))) := by
  intro rs
  induction rs with
  | nil =>
    intro a a' _ h
    rw [processAllStrict] at h
    injection h with h
    rw [h]
    simp
  | cons r rest ih =>
    intro a a' hdates h
    have hrd : r.date = d := hdates r (List.mem_cons_self _ _)
    rw [processAllStrict] at h
    cases happ : a.add_transaction r.date r.txn_type r.amount with
    | error e => rw [happ] at h; cases h
    | ok a₁ =>
      rw [happ] at h
      have hsh := add_transaction_ok_shape _ _ _ _ _ happ
      have ihh := ih a₁ a' (fun x hx => hdates x (List.mem_cons_of_mem _ hx)) h
      have hfilter : a₁.transactions.filter (fun t => t.date = d) =
          a.transactions.filter (fun t => t.date = d) ++
            [Transaction.make r.date a.account_id r.txn_type r.amount
              (a.generate_transaction_id r.date)] := by
        rw [hsh, filter_date_append,
          if_pos (show (Transaction.make r.date a.account_id r.txn_type r.amount
            (a.generate_transaction_id r.date)).date = d from hrd)]
      have hlen : (a₁.transactions.filter (fun t => t.date = d)).length =
          (a.transactions.filter (fun t => t.date = d)).length + 1 := by
        rw [hfilter, List.length_append, List.length_singleton]
      rw [ihh, hlen, hfilter, List.map_append, List.append_assoc]
      congr 1
      rw [List.map_singleton, List.singleton_append, List.length_cons,
        List.range_succ_eq_map, List.map_cons, List.map_map]
      congr 1
      · rw [show (Transaction.make r.date a.account_id r.txn_type r.amount
            (a.generate_transaction_id r.date)).txn_id =
              a.generate_transaction_id r.date from rfl,
          generate_transaction_id_eq, hrd]
      · apply List.map_congr_left
        intro i _
        simp only [Function.comp]
        congr 2
        omega

/-! ### Rule insertion, congruence of the interest query -/

lemma add_interest_rule_ok (b : Bank) (date rule_id : String) (rate : ℚ)
    (b' : Bank) (h : b.add_interest_rule date rule_id rate = (none, b')) :
    0 < rate ∧ rate < 100 ∧ checkDate8 date = true ∧
    b'.interest_rules = List.insertionSort (fun x y => strLe x.date y.date = true)
      ((b.interest_rules.filter (fun r => r.date ≠ date)) ++ [⟨date, rule_id, rate⟩]) ∧
    b'.accounts = b.accounts := by
  unfold Bank.add_interest_rule InterestRule.make at h
  split_ifs at h with h1 h2 <;> try simp at h
  push_neg at h1
  refine ⟨h1.1, h1.2, by simpa using h2, ?_, ?_⟩
  · rw [← h]
    simp [ne_eq, decide_not]
  · rw [← h]

lemma calculate_interest_congr (b₁ b₂ : Bank) (acc ym : String)
    (hacc : b₁.lookup acc = b₂.lookup acc)
    (hr : b₁.interest_rules = b₂.interest_rules) :
    b₁.calculate_interest acc ym = b₂.calculate_interest acc ym := by
  unfold Bank.lookup at hacc
  unfold Bank.calculate_interest
  cases h₁ : b₁.accounts.find? (fun p => p.1 = acc) with
  | none =>
    cases h₂ : b₂.accounts.find? (fun p => p.1 = acc) with
    | none => rfl
    | some pr => rw [h₁, h₂] at hacc; cases hacc
  | some pr₁ =>
    cases h₂ : b₂.accounts.find? (fun p => p.1 = acc) with
    | none => rw [h₁, h₂] at hacc; cases hacc
    | some pr₂ =>
      rw [h₁, h₂] at hacc
      obtain ⟨k₁, a₁⟩ := pr₁
      obtain ⟨k₂, a₂⟩ := pr₂
      have haa : a₁ = a₂ := by simpa using hacc
      cases haa
      rw [hr]

lemma get_statement_invalid (a : Account) (ym : String)
    (h : checkDigits6 ym = false) :
    a.get_statement ym = .error "Invalid year-month format. Use YYYYMM." := by
  unfold Account.get_statement
  rw [if_pos]
  rw [h]
  exact Bool.false_ne_true

lemma calculate_interest_some (b : Bank) (acc ym : String) (k : String)
    (a : Account) (hf : b.accounts.find? (fun p => p.1 = acc) = some (k, a)) :
    b.calculate_interest acc ym =
      (match a.get_statement ym with
        | .error e => .error e
        | .ok statement =>
          if statement = [] then .ok 0
          else
            match interestEngine b.interest_rules statement with
            | .error e => .error e
            | .ok total => .ok (round2 total)) := by
  unfold Bank.calculate_interest
  rw [hf]

lemma calculate_interest_unknown (b : Bank) (acc ym : String)
    (h : b.lookup acc = none) : b.calculate_interest acc ym = .ok 0 := by
  unfold Bank.lookup at h
  cases hf : b.accounts.find? (fun p => p.1 = acc) with
  | none =>
    unfold Bank.calculate_interest
    rw [hf]
  | some pr => rw [hf] at h; simp at h

lemma calculate_interest_empty (b : Bank) (acc ym : String) (acct : Account)
    (hacc : b.lookup acc = some acct) (hym : checkDigits6 ym = true)
    (hemp : acct.transactions.filter (fun t => strStartsWith t.date ym) = []) :
    b.calculate_interest acc ym = .ok 0 := by
  unfold Bank.lookup at hacc
  cases hf : b.accounts.find? (fun p => p.1 = acc) with
  | none => rw [hf] at hacc; cases hacc
  | some pr =>
    rw [hf] at hacc
    obtain ⟨k, a⟩ := pr
    have ha : a = acct := by simpa using hacc
    subst ha
    rw [calculate_interest_some b acc ym k a hf]
    simp [Account.get_statement, hym, hemp]

lemma calculate_interest_invalid_ym (b : Bank) (acc ym : String) (acct : Account)
    (hacc : b.lookup acc = some acct) (hym : checkDigits6 ym = false) :
    b.calculate_interest acc ym =
      .error "Invalid year-month format. Use YYYYMM." := by
  unfold Bank.lookup at hacc
  cases hf : b.accounts.find? (fun p => p.1 = acc) with
  | none => rw [hf] at hacc; cases hacc
  | some pr =>
    obtain ⟨k, a⟩ := pr
    rw [calculate_interest_some b acc ym k a hf, get_statement_invalid a ym hym]

lemma rules_state_after_add (b : Bank) (date rule_id : String) (rate : ℚ)
    (b' : Bank) (hdist : DistinctDates b.interest_rules)
    (h : b.add_interest_rule date rule_id rate = (none, b')) :
    List.Sorted (fun x y : InterestRule => strLe x.date y.date = true)
        b'.interest_rules ∧
      DistinctDates b'.interest_rules ∧
      b'.interest_rules.filter (fun r => r.date = date) =
        [⟨date, rule_id, rate⟩] := by
  obtain ⟨-, -, -, hrules, -⟩ := add_interest_rule_ok b date rule_id rate b' h
  have hperm : List.Perm b'.interest_rules
      ((b.interest_rules.filter (fun r => r.date ≠ date)) ++
        [(⟨date, rule_id, rate⟩ : InterestRule)]) := by
    rw [hrules]
    exact List.perm_insertionSort _ _
  refine ⟨?_, ?_, ?_⟩
  · rw [hrules]
    exact List.sorted_insertionSort _ _
  · have hld : DistinctDates
        ((b.interest_rules.filter (fun r => r.date ≠ date)) ++
          [(⟨date, rule_id, rate⟩ : InterestRule)]) := by
      apply List.pairwise_append.mpr
      refine ⟨List.Pairwise.filter _ hdist, List.pairwise_singleton _ _, ?_⟩
      intro x hx y hy
      rw [List.mem_singleton] at hy
      subst hy
      have hne := List.of_mem_filter hx
      simpa using hne
    exact (List.Perm.pairwise_iff (fun hxy => hxy.symm) hperm).mpr hld
  · have hfl : ((b.interest_rules.filter (fun r => r.date ≠ date)) ++
        [(⟨date, rule_id, rate⟩ : InterestRule)]).filter
          (fun r => r.date = date) = [⟨date, rule_id, rate⟩] := by
      rw [List.filter_append]
      rw [List.filter_eq_nil_iff.mpr (fun x hx => by
        have hne := List.of_mem_filter hx
        simpa using hne)]
      simp
    exact List.perm_singleton.mp (hfl ▸ hperm.filter _)

/-! ### Validation outcomes of `add_transaction` -/

lemma add_transaction_bad_date (a : Account) (date txn_type : String)
    (amount : ℚ) (hd : checkDate8 date = false) :
    a.add_transaction date txn_type amount =
      .error "Invalid date format. Use YYYYMMDD." := by
  unfold Account.add_transaction
  rw [if_pos (by rw [hd]; exact Bool.false_ne_true)]

lemma add_transaction_bad_type (a : Account) (date txn_type : String)
    (amount : ℚ) (hd : checkDate8 date = true)
    (ht : ¬ (strUpper txn_type = "D" ∨ strUpper txn_type = "W")) :
    a.add_transaction date txn_type amount =
      .error "Invalid transaction type. Use 'D' for deposit or 'W' for withdrawal." := by
  unfold Account.add_transaction
  rw [if_neg (not_not_intro hd), if_pos ht]

lemma add_transaction_bad_amount (a : Account) (date txn_type : String)
    (amount : ℚ) (hd : checkDate8 date = true)
    (ht : strUpper txn_type = "D" ∨ strUpper txn_type = "W")
    (ham : amount ≤ 0 ∨ round2 amount ≠ amount) :
    a.add_transaction date txn_type amount =
      .error "Invalid amount. Must be greater than zero with up to two decimal places." := by
  unfold Account.add_transaction
  rw [if_neg (not_not_intro hd), if_neg (not_not_intro ht), if_pos ham]

lemma add_transaction_insufficient (a : Account) (date txn_type : String)
    (amount : ℚ) (hd : checkDate8 date = true)
    (ht : strUpper txn_type = "W")
    (hpos : 0 < amount) (hr2 : round2 amount = amount)
    (hlow : a.balance - amount < 0) :
    a.add_transaction date txn_type amount = .error "Insufficient balance" := by
  unfold Account.add_transaction
  rw [if_neg (not_not_intro hd), if_neg (not_not_intro (Or.inr ht)),
    if_neg (by push_neg; exact ⟨hpos, hr2⟩), if_pos ⟨ht, hlow⟩]

lemma add_transaction_exact_balance (a : Account) (date txn_type : String)
    (hd : checkDate8 date = true) (ht : strUpper txn_type = "W")
    (hpos : 0 < a.balance) (hr2 : round2 a.balance = a.balance) :
    ∃ a', a.add_transaction date txn_type a.balance = .ok a' ∧ a'.balance = 0 := by
  unfold Account.add_transaction
  rw [if_neg (not_not_intro hd), if_neg (not_not_intro (Or.inr ht)),
    if_neg (by push_neg; exact ⟨hpos, hr2⟩),
    if_neg (fun hc => absurd (sub_self a.balance ▸ hc.2) (lt_irrefl 0)),
    if_neg (fun hD => by rw [ht] at hD; exact absurd hD (by decide)),
    if_pos ht]
  exact ⟨_, rfl, sub_self _⟩

lemma bank_add_transaction_error (b : Bank) (date acc_id txn_type : String)
    (amount : ℚ) (acct : Account) (hacc : b.lookup acc_id = some acct)
    (e : String) (herr : acct.add_transaction date txn_type amount = .error e) :
    b.add_transaction date acc_id txn_type amount = (some e, b) := by
  unfold Bank.lookup at hacc
  unfold Bank.add_transaction
  cases hf : b.accounts.find? (fun p => p.1 = acc_id) with
  | none => rw [hf] at hacc; cases hacc
  | some pr =>
    rw [hf] at hacc
    obtain ⟨k, a⟩ := pr
    have ha : a = acct := by simpa using hacc
    subst ha
    simp only [hf, Option.isNone_some, Bool.false_eq_true, if_false,
      Option.map_some', Option.getD_some, herr]

lemma calculate_interest_round (b : Bank) (acc ym : String) (acct : Account)
    (s : ℚ) (hacc : b.lookup acc = some acct) (hym : checkDigits6 ym = true)
    (hne : acct.transactions.filter (fun t => strStartsWith t.date ym) ≠ [])
    (heng : interestEngine b.interest_rules
      (acct.transactions.filter (fun t => strStartsWith t.date ym)) = .ok s) :
    b.calculate_interest acc ym = .ok (round2 s) := by
  unfold Bank.lookup at hacc
  cases hf : b.accounts.find? (fun p => p.1 = acc) with
  | none => rw [hf] at hacc; cases hacc
  | some pr =>
    rw [hf] at hacc
    obtain ⟨k, a⟩ := pr
    have ha : a = acct := by simpa using hacc
    subst ha
    rw [calculate_interest_some b acc ym k a hf]
    simp only [Account.get_statement, hym, Bool.true_eq_false, not_true_eq_false,
      if_false, if_neg hne, heng]

/-! ### Claim theorems -/

/-- C1: for every account with at least one statement transaction in the
queried month and any duplicate-free rule set whose statement days are
valid calendar dates, the interest engine returns exactly the sum over
the sorted distinct transaction days of
`balance_i * rate(d_i) * days_i / 365` (running balance from 0, first
span 1 day, later spans the calendar-day difference, rate from the rule
with the maximum effective date not exceeding the day, raw percentage,
zero contribution without a qualifying rule), and `calculate_interest`
returns that sum rounded to 2 decimal places. -/
theorem calculate_interest_matches_spec_formula (b : Bank)
    (account_id year_month : String) (acct : Account)
    (hacc : b.lookup account_id = some acct)
    (hym : checkDigits6 year_month = true)
    (hne : acct.transactions.filter (fun t => strStartsWith t.date year_month) ≠ [])
    (hdist : DistinctDates b.interest_rules)
    (hdates : ∀ t ∈ acct.transactions.filter
      (fun t => strStartsWith t.date year_month), (parseOrd t.date).isSome) :
    interestEngine b.interest_rules
        (acct.transactions.filter (fun t => strStartsWith t.date year_month))
      = .ok (specInterestSum b.interest_rules
          (acct.transactions.filter (fun t => strStartsWith t.date year_month))) ∧
    b.calculate_interest account_id year_month
      = .ok (round2 (specInterestSum b.interest_rules
          (acct.transactions.filter (fun t => strStartsWith t.date year_month)))) :=
  ⟨interestEngine_spec b.interest_rules _ hdist
      (fun d hd => by
        obtain ⟨t, ht, rfl⟩ := List.mem_map.mp hd
        exact hdates t ht),
    calculate_interest_spec b account_id year_month acct hacc hym hne hdist hdates⟩

theorem calculate_interest_matches_spec_formula_witness :
    ((Bank.new.add_transaction "20230601" "AC001" "D" 200).2.add_interest_rule
        "20230601" "RULE01" 2).2.calculate_interest "AC001" "202306"
      = .ok (round2 (specInterestSum
          ((Bank.new.add_transaction "20230601" "AC001" "D" 200).2.add_interest_rule
            "20230601" "RULE01" 2).2.interest_rules
          ((⟨"AC001", [⟨"20230601", "AC001", "D", 200, "20230601-01"⟩],
              200⟩ : Account).transactions.filter
            (fun t => strStartsWith t.date "202306")))) :=
  (calculate_interest_matches_spec_formula
    ((Bank.new.add_transaction "20230601" "AC001" "D" 200).2.add_interest_rule
      "20230601" "RULE01" 2).2 "AC001" "202306"
    ⟨"AC001", [⟨"20230601", "AC001", "D", 200, "20230601-01"⟩], 200⟩
    (by decide) (by decide) (by decide) (by decide) (by decide)).2

/-- C2 counterexample: for an existing account and the year-month string
"abc" (which no stored transaction date starts with), the claim demands
`0.0`, but the code raises the year-month format error instead. -/
theorem calculate_interest_zero_cases_cex :
    ((Bank.new.add_transaction "20230601" "AC001" "D" 100).2).calculate_interest
        "AC001" "abc"
      = .error "Invalid year-month format. Use YYYYMM." ∧
    (((Bank.new.add_transaction "20230601" "AC001" "D" 100).2).lookup "AC001").map
        (fun a => a.transactions.filter (fun t => strStartsWith t.date "abc"))
      = some [] := by
  constructor
  · exact calculate_interest_invalid_ym _ "AC001" "abc"
      ⟨"AC001", [⟨"20230601", "AC001", "D", 100, "20230601-01"⟩], 100⟩
      (by decide) (by decide)
  · decide

/-- C2 (amended): `calculateInterest` returns 0 for an unknown account;
for an existing account it first validates that the year-month begins
with 6 digits, raising `InvalidYearMonthFormat` otherwise (rather than
returning 0); with a valid year-month it returns 0 when no transaction
date starts with the year-month, and otherwise the engine's sum rounded
to 2 decimal places. -/
theorem calculate_interest_zero_and_rounding_cases :
    (∀ (b : Bank) (acc ym : String), b.lookup acc = none →
      b.calculate_interest acc ym = .ok 0) ∧
    (∀ (b : Bank) (acc ym : String) (acct : Account),
      b.lookup acc = some acct → checkDigits6 ym = false →
      b.calculate_interest acc ym =
        .error "Invalid year-month format. Use YYYYMM.") ∧
    (∀ (b : Bank) (acc ym : String) (acct : Account),
      b.lookup acc = some acct → checkDigits6 ym = true →
      acct.transactions.filter (fun t => strStartsWith t.date ym) = [] →
      b.calculate_interest acc ym = .ok 0) ∧
    (∀ (b : Bank) (acc ym : String) (acct : Account) (s : ℚ),
      b.lookup acc = some acct → checkDigits6 ym = true →
      acct.transactions.filter (fun t => strStartsWith t.date ym) ≠ [] →
      interestEngine b.interest_rules
        (acct.transactions.filter (fun t => strStartsWith t.date ym)) = .ok s →
      b.calculate_interest acc ym = .ok (round2 s)) :=
  ⟨fun b acc ym h => calculate_interest_unknown b acc ym h,
   fun b acc ym acct h hym => calculate_interest_invalid_ym b acc ym acct h hym,
   fun b acc ym acct h hym hemp => calculate_interest_empty b acc ym acct h hym hemp,
   fun b acc ym acct s h hym hne heng =>
     calculate_interest_round b acc ym acct s h hym hne heng⟩

theorem calculate_interest_zero_and_rounding_cases_witness :
    Bank.new.calculate_interest "AC999" "202306" = .ok 0 ∧
    ((Bank.new.add_transaction "20230601" "AC001" "D" 100).2).calculate_interest
        "AC001" "202307" = .ok 0 :=
  ⟨calculate_interest_zero_and_rounding_cases.1 Bank.new "AC999" "202306"
      (by decide),
   calculate_interest_zero_and_rounding_cases.2.2.1
      (Bank.new.add_transaction "20230601" "AC001" "D" 100).2 "AC001" "202307"
      ⟨"AC001", [⟨"20230601", "AC001", "D", 100, "20230601-01"⟩], 100⟩
      (by decide) (by decide) (by decide)⟩

/-- C3: a well-formed withdrawal request whose amount exceeds the current
balance is rejected with `Insufficient balance`, and at the ledger level
the entire bank state — in particular the account's balance and
transaction list — is exactly what it was before the call (every
validation fires before any mutation). -/
theorem withdrawal_insufficient_rejected_state_unchanged (a : Account)
    (date txn_type : String) (amount : ℚ)
    (hd : checkDate8 date = true) (ht : strUpper txn_type = "W")
    (hpos : 0 < amount) (hr2 : round2 amount = amount)
    (hlow : a.balance - amount < 0) :
    a.add_transaction date txn_type amount = .error "Insufficient balance" ∧
    ∀ (b : Bank) (acc_id : String), b.lookup acc_id = some a →
      b.add_transaction date acc_id txn_type amount =
        (some "Insufficient balance", b) := by
  have herr := add_transaction_insufficient a date txn_type amount hd ht hpos hr2 hlow
  exact ⟨herr, fun b acc_id hacc =>
    bank_add_transaction_error b date acc_id txn_type amount a hacc _ herr⟩

theorem withdrawal_insufficient_rejected_state_unchanged_witness :
    (⟨"AC001", [⟨"20230601", "AC001", "D", 50, "20230601-01"⟩], 50⟩ :
        Account).add_transaction "20230602" "W" 100
      = .error "Insufficient balance" :=
  (withdrawal_insufficient_rejected_state_unchanged
    ⟨"AC001", [⟨"20230601", "AC001", "D", 50, "20230601-01"⟩], 50⟩
    "20230602" "W" 100 (by decide) (by decide) (by decide) (by decide)
    (by decide)).1

/-- C4: over any sequence of requests applied to a fresh account (failed
ones leaving the state untouched), the stored balance equals the sum of
deposit amounts minus the sum of withdrawal amounts over the stored
transactions, and the balance is never negative; since every prefix of a
sequence is itself such a sequence, the balance is non-negative at every
point. -/
theorem balance_equals_signed_sum_and_nonneg (account_id : String)
    (rs : List TxnReq) :
    (processAll (Account.new account_id) rs).balance =
        depositSum (processAll (Account.new account_id) rs).transactions -
          withdrawalSum (processAll (Account.new account_id) rs).transactions ∧
      0 ≤ (processAll (Account.new account_id) rs).balance :=
  processAll_inv rs (Account.new account_id) (by norm_num [Account.new,
    depositSum, withdrawalSum]) (le_refl 0)

/-- C5: after every successful `add_interest_rule` call on a ledger whose
rules have pairwise distinct dates, the rule list is sorted by effective
date ascending, still has at most one rule per date, and the only rule
stored for the inserted date is the newly defined one (last-write-wins
per date). -/
theorem interest_rules_sorted_unique_after_add (b : Bank)
    (date rule_id : String) (rate : ℚ) (b' : Bank)
    (hdist : DistinctDates b.interest_rules)
    (h : b.add_interest_rule date rule_id rate = (none, b')) :
    List.Sorted (fun x y : InterestRule => strLe x.date y.date = true)
        b'.interest_rules ∧
      DistinctDates b'.interest_rules ∧
      b'.interest_rules.filter (fun r => r.date = date) =
        [⟨date, rule_id, rate⟩] :=
  rules_state_after_add b date rule_id rate b' hdist h

theorem interest_rules_sorted_unique_after_add_witness :
    List.Sorted (fun x y : InterestRule => strLe x.date y.date = true)
        ((Bank.new.add_interest_rule "20230601" "RULE01" 1).2.add_interest_rule
          "20230601" "RULE02" 2).2.interest_rules ∧
      DistinctDates ((Bank.new.add_interest_rule "20230601" "RULE01" 1).2.add_interest_rule
          "20230601" "RULE02" 2).2.interest_rules ∧
      ((Bank.new.add_interest_rule "20230601" "RULE01" 1).2.add_interest_rule
          "20230601" "RULE02" 2).2.interest_rules.filter
            (fun r => r.date = "20230601") = [⟨"20230601", "RULE02", 2⟩] :=
  interest_rules_sorted_unique_after_add
    (Bank.new.add_interest_rule "20230601" "RULE01" 1).2 "20230601" "RULE02" 2
    ((Bank.new.add_interest_rule "20230601" "RULE01" 1).2.add_interest_rule
      "20230601" "RULE02" 2).2
    (by decide) (by decide)

/-- C6: every rate outside the open interval (0,100) is rejected with the
invalid-rate error and no rule is added, both at the ledger boundary
(whose state is returned unchanged) and at the redundant check inside the
`InterestRule` constructor (reached when the date is well-formed), while
rates strictly inside (0,100) pass both checks. -/
theorem invalid_rate_rejected_both_layers :
    (∀ (b : Bank) (date rule_id : String) (rate : ℚ), rate ≤ 0 ∨ 100 ≤ rate →
      b.add_interest_rule date rule_id rate = (some "Invalid interest rate", b)) ∧
    (∀ (date rule_id : String) (rate : ℚ), checkDate8 date = true →
      rate ≤ 0 ∨ 100 ≤ rate →
      InterestRule.make date rule_id rate =
        .error "Invalid interest rate. Must be between 0 and 100.") ∧
    (∀ (date rule_id : String) (rate : ℚ), checkDate8 date = true →
      0 < rate → rate < 100 →
      InterestRule.make date rule_id rate = .ok ⟨date, rule_id, rate⟩ ∧
      ∀ b : Bank, (b.add_interest_rule date rule_id rate).1 = none) := by
  refine ⟨?_, ?_, ?_⟩
  · intro b date rule_id rate hr
    unfold Bank.add_interest_rule
    rw [if_pos hr]
  · intro date rule_id rate hd hr
    unfold InterestRule.make
    rw [if_neg (not_not_intro hd), if_pos hr]
  · intro date rule_id rate hd h0 h100
    have hmk : InterestRule.make date rule_id rate = .ok ⟨date, rule_id, rate⟩ := by
      unfold InterestRule.make
      rw [if_neg (not_not_intro hd), if_neg (by push_neg; exact ⟨h0, h100⟩)]
    refine ⟨hmk, fun b => ?_⟩
    unfold Bank.add_interest_rule
    rw [if_neg (by push_neg; exact ⟨h0, h100⟩), hmk]

theorem invalid_rate_rejected_both_layers_witness :
    Bank.new.add_interest_rule "20230601" "RULE01" 120 =
      (some "Invalid interest rate", Bank.new) ∧
    InterestRule.make "20230601" "RULE01" (-1) =
      .error "Invalid interest rate. Must be between 0 and 100." ∧
    InterestRule.make "20230601" "RULE01" 2 = .ok ⟨"20230601", "RULE01", 2⟩ :=
  ⟨invalid_rate_rejected_both_layers.1 Bank.new "20230601" "RULE01" 120
      (Or.inr (by norm_num)),
   invalid_rate_rejected_both_layers.2.1 "20230601" "RULE01" (-1) (by decide)
      (Or.inl (by norm_num)),
   (invalid_rate_rejected_both_layers.2.2 "20230601" "RULE01" 2 (by decide)
      (by norm_num) (by norm_num)).1⟩

/-- C7: on an account with no prior transaction on day `d`, a sequence of
N successfully applied requests all dated `d` is assigned exactly the ids
`d-01` through `d-NN` in insertion order (sequence number 2-digit
zero-padded, counting prior same-date transactions, of which there are
none here). -/
theorem same_day_transaction_ids_sequential (a : Account) (d : String)
    (rs : List TxnReq) (a' : Account)
    (hd : ∀ r ∈ rs, r.date = d)
    (h0 : a.transactions.filter (fun t => t.date = d) = [])
    (h : processAllStrict a rs = some a') :
    (a'.transactions.filter (fun t => t.date = d)).map (fun t => t.txn_id) =
      (List.range rs.length).map (fun i => d ++ "-" ++ pad2 (i + 1)) := by
  have haux := processAllStrict_ids d rs a a' hd h
  rw [h0] at haux
  simp only [List.map_nil, List.length_nil, List.nil_append, zero_add] at haux
  exact haux

theorem same_day_transaction_ids_sequential_witness :
    (((⟨"AC001",
        [⟨"20230601", "AC001", "D", 100, "20230601-01"⟩,
         ⟨"20230601", "AC001", "W", 50, "20230601-02"⟩], 50⟩ :
          Account).transactions.filter
        (fun t => t.date = "20230601")).map (fun t => t.txn_id)) =
      (List.range ([(⟨"20230601", "D", 100⟩ : TxnReq),
        ⟨"20230601", "W", 50⟩] : List TxnReq).length).map
          (fun i => "20230601" ++ "-" ++ pad2 (i + 1)) :=
  same_day_transaction_ids_sequential (Account.new "AC001") "20230601"
    [⟨"20230601", "D", 100⟩, ⟨"20230601", "W", 50⟩]
    ⟨"AC001",
      [⟨"20230601", "AC001", "D", 100, "20230601-01"⟩,
       ⟨"20230601", "AC001", "W", 50, "20230601-02"⟩], 50⟩
    (by decide) (by decide) (by decide)

/-- C8 counterexample: the date check is `re.match(r'\d{8}', date)`, which
only requires the first 8 characters to be digits: the 9-character
string `"20230601X"` is not an 8-digit calendar-date string, yet the
transaction is accepted. -/
theorem add_transaction_date_pattern_cex :
    (Account.new "A").add_transaction "20230601X" "D" 1 =
      .ok ⟨"A", [⟨"20230601X", "A", "D", 1, "20230601X-01"⟩], 1⟩ ∧
    specIsCalendarDate "20230601X" = false ∧
    ("20230601X" : String).data.length ≠ 8 := by decide

/-- C8 (amended): `addTransaction` accepts an input only if the date
string *begins with 8 digits* (no exact-length or calendar validity
check), the kind upper-cases to `D` or `W`, and the amount is strictly
positive with at most 2 decimal digits; each violated validation is
rejected with its own error, in source order, before any mutation. -/
theorem add_transaction_validation_characterization :
    (∀ (a a' : Account) (date txn_type : String) (amount : ℚ),
      a.add_transaction date txn_type amount = .ok a' →
      checkDate8 date = true ∧
        (strUpper txn_type = "D" ∨ strUpper txn_type = "W") ∧
        0 < amount ∧ round2 amount = amount) ∧
    (∀ (a : Account) (date txn_type : String) (amount : ℚ),
      checkDate8 date = false →
      a.add_transaction date txn_type amount =
        .error "Invalid date format. Use YYYYMMDD.") ∧
    (∀ (a : Account) (date txn_type : String) (amount : ℚ),
      checkDate8 date = true →
      ¬ (strUpper txn_type = "D" ∨ strUpper txn_type = "W") →
      a.add_transaction date txn_type amount =
        .error "Invalid transaction type. Use 'D' for deposit or 'W' for withdrawal.") ∧
    (∀ (a : Account) (date txn_type : String) (amount : ℚ),
      checkDate8 date = true →
      (strUpper txn_type = "D" ∨ strUpper txn_type = "W") →
      amount ≤ 0 ∨ round2 amount ≠ amount →
      a.add_transaction date txn_type amount =
        .error "Invalid amount. Must be greater than zero with up to two decimal places.") :=
  ⟨fun a a' date txn_type amount h =>
      add_transaction_ok_checks a date txn_type amount a' h,
   fun a date txn_type amount hd =>
      add_transaction_bad_date a date txn_type amount hd,
   fun a date txn_type amount hd ht =>
      add_transaction_bad_type a date txn_type amount hd ht,
   fun a date txn_type amount hd ht ham =>
      add_transaction_bad_amount a date txn_type amount hd ht ham⟩

theorem add_transaction_validation_characterization_witness :
    (Account.new "A").add_transaction "2023" "D" 1 =
        .error "Invalid date format. Use YYYYMMDD." ∧
    (Account.new "A").add_transaction "20230601" "X" 1 =
        .error "Invalid transaction type. Use 'D' for deposit or 'W' for withdrawal." ∧
    (Account.new "A").add_transaction "20230601" "D" 0 =
        .error "Invalid amount. Must be greater than zero with up to two decimal places." :=
  ⟨add_transaction_validation_characterization.2.1 (Account.new "A") "2023" "D" 1
      (by decide),
   add_transaction_validation_characterization.2.2.1 (Account.new "A")
      "20230601" "X" 1 (by decide) (by decide),
   add_transaction_validation_characterization.2.2.2 (Account.new "A")
      "20230601" "D" 0 (by decide) (Or.inl (by decide)) (Or.inl (by norm_num))⟩

/-- C9: `calculate_interest` is a pure, deterministic function of the
stored account (for the queried id) and the stored rule set: two banks
agreeing on those yield identical results, and the embedded function
returns no modified state because the source method performs no
mutation. -/
theorem calculate_interest_pure_function_of_state (b₁ b₂ : Bank)
    (acc ym : String) (hacc : b₁.lookup acc = b₂.lookup acc)
    (hr : b₁.interest_rules = b₂.interest_rules) :
    b₁.calculate_interest acc ym = b₂.calculate_interest acc ym :=
  calculate_interest_congr b₁ b₂ acc ym hacc hr

theorem calculate_interest_pure_function_of_state_witness :
    ((Bank.new.add_transaction "20230601" "AC001" "D" 100).2).calculate_interest
        "AC001" "202306" =
      (((Bank.new.add_transaction "20230501" "ZZZ" "D" 1).2.add_transaction
        "20230601" "AC001" "D" 100).2).calculate_interest "AC001" "202306" :=
  calculate_interest_pure_function_of_state
    (Bank.new.add_transaction "20230601" "AC001" "D" 100).2
    ((Bank.new.add_transaction "20230501" "ZZZ" "D" 1).2.add_transaction
      "20230601" "AC001" "D" 100).2
    "AC001" "202306" (by decide) (by decide)

/-- C10: a well-formed withdrawal whose amount exactly equals the current
balance is admitted (the insufficient-balance check fires only on a
strictly negative difference) and leaves the balance at exactly 0. -/
theorem exact_balance_withdrawal_admitted (a : Account)
    (date txn_type : String)
    (hd : checkDate8 date = true) (ht : strUpper txn_type = "W")
    (hpos : 0 < a.balance) (hr2 : round2 a.balance = a.balance) :
    ∃ a', a.add_transaction date txn_type a.balance = .ok a' ∧
      a'.balance = 0 :=
  add_transaction_exact_balance a date txn_type hd ht hpos hr2

theorem exact_balance_withdrawal_admitted_witness :
    ∃ a', (⟨"AC001", [⟨"20230601", "AC001", "D", 50, "20230601-01"⟩], 50⟩ :
        Account).add_transaction "20230602" "W"
        (⟨"AC001", [⟨"20230601", "AC001", "D", 50, "20230601-01"⟩], 50⟩ :
          Account).balance = .ok a' ∧ a'.balance = 0 :=
  exact_balance_withdrawal_admitted
    ⟨"AC001", [⟨"20230601", "AC001", "D", 50, "20230601-01"⟩], 50⟩
    "20230602" "W" (by decide) (by decide) (by decide) (by decide)
